import Mathlib

/-!
Verification of `cybootloaderhost.py`, a host-side flasher for the Cypress
HID bootloader.  The Python classes `Bootloader` and `Cyacd` are shallowly
embedded below: bytes are `Nat`, Python lists are `List Nat`, and every
operation that can raise (`assert`, `KeyError`, `IndexError`) or that
depends on transport availability returns an `Option`.  The HID device is
modelled as a queue of incoming frames plus a trace of written packets.
-/

namespace Bootloader

/-- `Bootloader.MAX_DATA_LENGTH = 64-7-9` (source line 27). -/
def MAX_DATA_LENGTH : Nat := 64 - 7 - 9

/-- `Bootloader.STATUSES` (source lines 29-41), as an association list. -/
def STATUSES : List (Nat × String) :=
  [(0x00, "CYRET_SUCCESS"),
   (0x03, "BOOTLOADER_ERR_LENGTH"),
   (0x04, "BOOTLOADER_ERR_DATA"),
   (0x05, "BOOTLOADER_ERR_CMD"),
   (0x08, "BOOTLOADER_ERR_CHECKSUM"),
   (0x09, "BOOTLOADER_ERR_ARRAY"),
   (0x0a, "BOOTLOADER_ERR_ROW"),
   (0x0c, "BOOTLOADER_ERR_APP"),
   (0x0d, "BOOTLOADER_ERR_ACTIVE"),
   (0x0e, "BOOTLOADER_ERR_CALLBACK"),
   (0x0f, "BOOTLOADER_ERR_UNK")]

/-- Python dict indexing `STATUSES[b]` (source line 92): `none` models the
`KeyError` raised when `b` is not a key of the table. -/
def statusLookup (b : Nat) : Option String :=
  (STATUSES.find? (fun p => p.1 == b)).map (fun p => p.2)

/-- `Bootloader._checksum` (source lines 54-59): sum the bytes, then
`(~checksum + 1) & 0xffff`.  On Python's unbounded integers `~x = -x - 1`,
and `& 0xffff` of the resulting negative number is its nonnegative residue
modulo 65536, which is what `Int.emod` computes. -/
def _checksum (data : List Nat) : Nat :=
  let checksum : Int := data.foldl (fun (acc : Int) (byte : Nat) => acc + byte) 0
  (((-checksum - 1) + 1) % 65536).toNat

/-- `Bootloader._make_packet` (source lines 61-80).  `none` models the
failure of `assert data_length <= (64 - 7)`; otherwise the frame is built
by the same sequence of appends as the source. -/
def _make_packet (command : Nat) (data : List Nat) : Option (List Nat) :=
  let packet := [0x01, command]
  let data_length := data.length
  if data_length ≤ 64 - 7 then
    let packet := packet ++ [data_length &&& 0xff, data_length >>> 8]
    let packet := packet ++ data
    let checksum := _checksum packet
    let packet := packet ++ [checksum &&& 0xff, checksum >>> 8]
    let packet := packet ++ [0x17]
    some packet
  else
    none

/-- The frame `_make_packet` produces when its length assert passes:
start marker, command, length bytes, payload, checksum bytes, end
marker. -/
def packet_bytes (command : Nat) (data : List Nat) : List Nat :=
  [0x01, command, data.length &&& 0xff, data.length >>> 8] ++ data ++
    [_checksum ([0x01, command, data.length &&& 0xff, data.length >>> 8] ++ data) &&& 0xff,
     _checksum ([0x01, command, data.length &&& 0xff, data.length >>> 8] ++ data) >>> 8,
     0x17]

/-- The dictionary returned by `Bootloader._parse_response`. -/
structure Response where
  status : String
  data : List Nat
  checksum_ok : Bool
deriving DecidableEq, Repr

/-- `Bootloader._parse_response` (source lines 82-107).  `none` models the
exceptions the source can raise while decoding: `IndexError` on a short
buffer, `AssertionError` on a bad start or end marker, and `KeyError` when
the status byte is missing from `STATUSES` (line 92 indexes the dict
directly, so the `"BOOTLOADER_ERR_UNK"` default placed in the response on
line 84 is unreachable for unknown status bytes). -/
def _parse_response (response_data : List Nat) : Option Response := do
  let sop ← response_data[0]?
  if sop = 0x01 then do
    let statusByte ← response_data[1]?
    let status ← statusLookup statusByte
    let b2 ← response_data[2]?
    let b3 ← response_data[3]?
    let data_length := (b3 <<< 8) ||| b2
    let data := if 0 < data_length then (response_data.drop 4).take data_length else []
    let lo ← response_data[4 + data_length]?
    let hi ← response_data[4 + data_length + 1]?
    let checksum_received := lo ||| (hi <<< 8)
    let checksum_calculated := _checksum (response_data.take (4 + data_length))
    let eop ← response_data[4 + data_length + 2]?
    if eop = 0x17 then
      some { status := status, data := data,
             checksum_ok := checksum_calculated == checksum_received }
    else
      none
  else
    none

/-- Model of the HID transport handle (`hid.device`): `written` is the
trace of packets passed to `write`, `toRead` the queue of frames the
device will hand to successive `read` calls. -/
structure Device where
  written : List (List Nat)
  toRead : List (List Nat)
deriving DecidableEq, Repr

/-- `self._device.write(packet)`: record the packet on the trace. -/
def Device.write (d : Device) (packet : List Nat) : Device :=
  { d with written := d.written ++ [packet] }

/-- `self._device.read(64)`: pop the next queued frame; `none` models a
read for which the device never produces a response. -/
def Device.read (d : Device) : Option (List Nat × Device) :=
  match d.toRead with
  | [] => none
  | r :: rest => some (r, { d with toRead := rest })

/-- Instance state of the Python `Bootloader` class: the transport handle
plus the three identity attributes set in `__init__` (source lines 50-52),
all initially `None`. -/
structure State where
  device : Device
  jtag_id : Option Nat
  device_revision : Option Nat
  bootloader_revision : Option (List Nat)
deriving DecidableEq, Repr

/-- `Bootloader.send_command` (source lines 109-115): frame the command,
write it, read one frame and parse it. -/
def send_command (st : State) (command : Nat) (data : List Nat) :
    Option (Bootloader.Response × State) := do
  let packet ← _make_packet command data
  let d1 := st.device.write packet
  let (response_data, d2) ← d1.read
  let response ← _parse_response response_data
  some (response, { st with device := d2 })

/-- `Bootloader.enter_bootloader` (source lines 117-128). -/
def enter_bootloader (st : State) : Option (Bool × State) := do
  let (response, st1) ← send_command st 0x38 []
  if response.checksum_ok && (response.status == "CYRET_SUCCESS") then do
    let d0 ← response.data[0]?
    let d1 ← response.data[1]?
    let d2 ← response.data[2]?
    let d3 ← response.data[3]?
    let jtag_id := ((d0 ||| (d1 <<< 8)) ||| (d2 <<< 16)) ||| (d3 <<< 24)
    let device_revision ← response.data[4]?
    let bootloader_revision := ((response.data.drop 5).take 3).reverse
    some (true,
      { st1 with
          jtag_id := some jtag_id
          device_revision := some device_revision
          bootloader_revision := some bootloader_revision })
  else
    some (false, st1)

/-- `Bootloader.program_row` (source lines 130-136). -/
def program_row (st : State) (array_id row_number : Nat) (data : List Nat) :
    Option (Bool × State) := do
  let arguments := [array_id, row_number &&& 0xff, row_number >>> 8]
  let (response, st1) ← send_command st 0x39 (arguments ++ data)
  if response.checksum_ok && (response.status == "CYRET_SUCCESS") then
    some (true, st1)
  else
    some (false, st1)

/-- `Bootloader.erase_row` (source lines 138-144). -/
def erase_row (st : State) (array_id row_number : Nat) :
    Option (Bool × State) := do
  let arguments := [array_id, row_number &&& 0xff, row_number >>> 8]
  let (response, st1) ← send_command st 0x34 arguments
  if response.checksum_ok && (response.status == "CYRET_SUCCESS") then
    some (true, st1)
  else
    some (false, st1)

/-- `Bootloader.send_data` (source lines 146-151). -/
def send_data (st : State) (data : List Nat) : Option (Bool × State) := do
  let (response, st1) ← send_command st 0x37 data
  if response.checksum_ok && (response.status == "CYRET_SUCCESS") then
    some (true, st1)
  else
    some (false, st1)

/-- `Bootloader.exit_bootloader` (source lines 153-155): write the exit
packet; no read, no state change. -/
def exit_bootloader (st : State) : Option State := do
  let packet ← _make_packet 0x3b []
  some { st with device := st.device.write packet }

/-- Body of the `for row in firmware_data` loop of `Bootloader.flash`
(source lines 159-175).  A row is the `(array_id, row_number, data)` tuple
appended by `Cyacd.parse`; the boolean results of `send_data` and
`program_row` are discarded exactly as in the source. -/
def flash_row (st : State) (row : Nat × Nat × List Nat) : Option State := do
  let array_id := row.1
  let row_number := row.2.1
  let data := row.2.2
  if MAX_DATA_LENGTH ≤ data.length then
    let full_packets := data.length / MAX_DATA_LENGTH
    let remainder_length := data.length % MAX_DATA_LENGTH
    if 0 < remainder_length then do
      let st2 ← (List.range full_packets).foldlM (fun s i => do
        let (_, s') ← send_data s
          ((data.drop (MAX_DATA_LENGTH * i)).take MAX_DATA_LENGTH)
        pure s') st
      let (_, st3) ← program_row st2 array_id row_number
        ((data.drop (MAX_DATA_LENGTH * full_packets)).take remainder_length)
      pure st3
    else do
      let st2 ← (List.range (full_packets - 1)).foldlM (fun s i => do
        let (_, s') ← send_data s
          ((data.drop (MAX_DATA_LENGTH * i)).take MAX_DATA_LENGTH)
        pure s') st
      let (_, st3) ← program_row st2 array_id row_number
        ((data.drop (MAX_DATA_LENGTH * (full_packets - 1))).take MAX_DATA_LENGTH)
      pure st3
  else do
    let (_, st3) ← program_row st array_id row_number data
    pure st3

/-- `Bootloader.flash` (source lines 157-175): run `flash_row` over the
parsed firmware rows in file order. -/
def flash (st : State) (firmware : List (Nat × Nat × List Nat)) : Option State :=
  firmware.foldlM flash_row st

end Bootloader

namespace Cyacd

/-- `Cyacd._checksum` (source lines 185-190): like the packet checksum but
masked with `0xff`, i.e. the residue of the negated byte sum modulo 256. -/
def _checksum (data : List Nat) : Nat :=
  let checksum : Int := data.foldl (fun (acc : Int) (byte : Nat) => acc + byte) 0
  (((-checksum - 1) + 1) % 256).toNat

/-- The row loop of `Cyacd.parse` (source lines 204-216), taken over the
hex-decoded bytes of each firmware line (`binascii.a2b_hex` of the line
minus its leading record marker, handled upstream of this loop).  `none`
models `IndexError` on a short line and the failure of
`assert checksum == checksum_calculated` (source line 213); on success the
rows are accumulated in file order. -/
def parse_line (firmware : List (Nat × Nat × List Nat)) (ln : List Nat) :
    Option (List (Nat × Nat × List Nat)) := do
  let array_id ← ln[0]?
  let r1 ← ln[1]?
  let r2 ← ln[2]?
  let row_number := (r1 <<< 8) ||| r2
  let l1 ← ln[3]?
  let l2 ← ln[4]?
  let data_length := (l1 <<< 8) ||| l2
  let data := (ln.drop 5).take data_length
  let checksum ← ln[5 + data_length]?
  let checksum_calculated := _checksum (ln.take (ln.length - 1))
  if checksum = checksum_calculated then
    pure (firmware ++ [(array_id, row_number, data)])
  else
    none

/-- The full row loop: fold `parse_line` over the lines, accumulating the
rows in file order starting from the empty list. -/
def parse_rows (lines : List (List Nat)) : Option (List (Nat × Nat × List Nat)) :=
  lines.foldlM parse_line []

/-- The data length declared by a decoded firmware line: bytes 3-4,
big-endian, as read by `Cyacd.parse`. -/
def line_data_length (ln : List Nat) : Nat :=
  ((ln.getD 3 0) <<< 8) ||| ln.getD 4 0

/-- A decoded firmware line of the exact declared length: array id, row
number (2 bytes), data length (2 bytes), data, one trailing checksum
byte. -/
def line_wf (ln : List Nat) : Prop :=
  ln.length = 6 + line_data_length ln

/-- The trailing checksum byte of a decoded line equals the 8-bit
two's-complement negation of the sum of all preceding bytes. -/
def line_checksum_ok (ln : List Nat) : Prop :=
  ln.getD (5 + line_data_length ln) 0 = _checksum (ln.take (ln.length - 1))

/-- The `(array_id, row_number, data)` triple `Cyacd.parse` appends for a
decoded line. -/
def line_row (ln : List Nat) : Nat × Nat × List Nat :=
  (ln.getD 0 0, ((ln.getD 1 0) <<< 8) ||| ln.getD 2 0,
    (ln.drop 5).take (line_data_length ln))

end Cyacd

instance decidable_line_wf (ln : List Nat) : Decidable (Cyacd.line_wf ln) :=
  inferInstanceAs (Decidable (ln.length = 6 + Cyacd.line_data_length ln))

instance decidable_line_checksum_ok (ln : List Nat) :
    Decidable (Cyacd.line_checksum_ok ln) :=
  inferInstanceAs (Decidable (ln.getD (5 + Cyacd.line_data_length ln) 0 =
    Cyacd._checksum (ln.take (ln.length - 1))))


namespace Spec

/-- Modelled from the spec (§4.4, §8): the `sendData` chunks the
row-splitting algorithm is specified to send for one row, with
`MAX_DATA_LENGTH = 48`: none when the data is shorter than 48 bytes,
`full` 48-byte chunks `data[48*i : 48*(i+1)]` when `rem > 0`, and
`full - 1` such chunks when `rem = 0`. -/
def send_chunks (data : List Nat) : List (List Nat) :=
  if data.length < 48 then []
  else if 0 < data.length % 48 then
    (List.range (data.length / 48)).map (fun i => (data.drop (48 * i)).take 48)
  else
    (List.range (data.length / 48 - 1)).map (fun i => (data.drop (48 * i)).take 48)

/-- Modelled from the spec (§4.4, §8): the chunk the final `programRow`
carries — the whole row when shorter than 48 bytes, the trailing `rem`
bytes `data[48*full:]` when `rem > 0`, and the trailing 48 bytes
`data[48*(full-1):]` when `rem = 0`. -/
def final_chunk (data : List Nat) : List Nat :=
  if data.length < 48 then data
  else if 0 < data.length % 48 then data.drop (48 * (data.length / 48))
  else data.drop (48 * (data.length / 48 - 1))

/-- The wire packets the spec's row-splitting algorithm predicts for one
row: one `sendData` (0x37) frame per chunk, then a single final
`programRow` (0x39) frame carrying the row address and the last chunk. -/
def row_packets (array_id row_number : Nat) (data : List Nat) : List (List Nat) :=
  (send_chunks data).map (Bootloader.packet_bytes 0x37) ++
    [Bootloader.packet_bytes 0x39
      ([array_id, row_number &&& 0xff, row_number >>> 8] ++ final_chunk data)]

end Spec


section Helpers

/-- Bit-twiddling helper: `&&& 0xff` equals `% 256`. -/
theorem and_255_eq_mod (n : Nat) : n &&& 0xff = n % 256 := by
  simpa using Nat.and_pow_two_sub_one_eq_mod n 8

/-- Bit-twiddling helper: `>>> 8` equals `/ 256`. -/
theorem shiftRight8_eq_div (n : Nat) : n >>> 8 = n / 256 := by
  rw [Nat.shiftRight_eq_div_pow]

/-- Bit-twiddling helper: `a ||| (b <<< k)` is plain addition when `a`
fits below the shift. -/
theorem lor_shiftLeft_eq_add (a b k : Nat) (h : a < 2 ^ k) :
    a ||| (b <<< k) = 2 ^ k * b + a := by
  apply Nat.eq_of_testBit_eq
  intro j
  rw [Nat.testBit_lor, Nat.testBit_shiftLeft, Nat.testBit_mul_pow_two_add b h j]
  by_cases hj : j < k
  · have : ¬ (j ≥ k) := by omega
    simp [hj, this]
  · have hj' : k ≤ j := Nat.not_lt.1 hj
    have ha : a.testBit j = false :=
      Nat.testBit_lt_two_pow (lt_of_lt_of_le h (Nat.pow_le_pow_right (by norm_num) hj'))
    simp [hj, hj', ha]

/-- Reassemble a 16-bit value from its little-endian bytes. -/
theorem lor_bytes_recombine (ck : Nat) :
    (ck % 256) ||| ((ck / 256) <<< 8) = ck := by
  have h : ck % 256 < 2 ^ 8 := by
    have e : (2:Nat) ^ 8 = 256 := by norm_num
    rw [e]
    exact Nat.mod_lt _ (by norm_num)
  rw [lor_shiftLeft_eq_add _ _ 8 h]
  norm_num
  omega

/-- Folding Python's `checksum += byte` over the bytes computes the sum. -/
theorem foldl_add_int (l : List Nat) (a : Int) :
    l.foldl (fun (acc : Int) (byte : Nat) => acc + byte) a = a + (l.sum : Int) := by
  induction l generalizing a with
  | nil => simp
  | cons x xs ih =>
    rw [List.foldl_cons, ih, List.sum_cons]
    push_cast
    ring

/-- `Bootloader._checksum` is the nonnegative residue of the negated byte
sum modulo 65536. -/
theorem bootloader_checksum_eq (data : List Nat) :
    Bootloader._checksum data = ((-(data.sum : Int)) % 65536).toNat := by
  unfold Bootloader._checksum
  rw [foldl_add_int]
  norm_num

/-- `Cyacd._checksum` is the nonnegative residue of the negated byte sum
modulo 256. -/
theorem cyacd_checksum_eq (data : List Nat) :
    Cyacd._checksum data = ((-(data.sum : Int)) % 256).toNat := by
  unfold Cyacd._checksum
  rw [foldl_add_int]
  norm_num

theorem bootloader_checksum_lt (data : List Nat) :
    Bootloader._checksum data < 65536 := by
  rw [bootloader_checksum_eq]
  have h0 : (0:Int) ≤ (-(data.sum : Int)) % 65536 :=
    Int.emod_nonneg _ (by norm_num)
  have h1 : (-(data.sum : Int)) % 65536 < 65536 :=
    Int.emod_lt_of_pos _ (by norm_num)
  omega

theorem bootloader_checksum_cancels (data : List Nat) :
    (data.sum + Bootloader._checksum data) % 65536 = 0 := by
  rw [bootloader_checksum_eq]
  have h0 : (0:Int) ≤ (-(data.sum : Int)) % 65536 :=
    Int.emod_nonneg _ (by norm_num)
  have h1 : (-(data.sum : Int)) % 65536 < 65536 :=
    Int.emod_lt_of_pos _ (by norm_num)
  have h2 : ((-(data.sum : Int)) % 65536 + (data.sum : Int)) % 65536 = 0 := by
    omega
  omega

end Helpers

theorem make_packet_eq (command : Nat) (data : List Nat) (h : data.length ≤ 57) :
    Bootloader._make_packet command data = some (Bootloader.packet_bytes command data) := by
  unfold Bootloader._make_packet Bootloader.packet_bytes
  rw [if_pos (by omega : data.length ≤ 64 - 7)]
  simp [List.append_assoc]

theorem make_packet_some_inv {command : Nat} {data packet : List Nat}
    (h : Bootloader._make_packet command data = some packet) :
    data.length ≤ 57 ∧ packet = Bootloader.packet_bytes command data := by
  unfold Bootloader._make_packet at h
  by_cases hl : data.length ≤ 64 - 7
  · rw [if_pos hl] at h
    refine ⟨by omega, ?_⟩
    unfold Bootloader.packet_bytes
    have h2 := Option.some.inj h
    rw [← h2]
    simp [List.append_assoc]
  · rw [if_neg hl] at h
    cases h

theorem parse_packet_bytes (command : Nat) (s : String) (data : List Nat)
    (hs : Bootloader.statusLookup command = some s) (h : data.length ≤ 57) :
    Bootloader._parse_response (Bootloader.packet_bytes command data) =
      some { status := s, data := data, checksum_ok := true } := by
  have hmask : data.length &&& 0xff = data.length := by
    rw [and_255_eq_mod]; exact Nat.mod_eq_of_lt (by omega)
  have hshift : data.length >>> 8 = 0 := by
    rw [shiftRight8_eq_div]; omega
  have hE : Bootloader.packet_bytes command data =
      ([0x01, command, data.length, 0] ++ data) ++
        [Bootloader._checksum ([0x01, command, data.length, 0] ++ data) &&& 0xff,
         Bootloader._checksum ([0x01, command, data.length, 0] ++ data) >>> 8, 0x17] := by
    unfold Bootloader.packet_bytes
    rw [hmask, hshift]
  set pre : List Nat := [0x01, command, data.length, 0] ++ data with hpre
  set ck := Bootloader._checksum pre with hck
  set tail3 : List Nat := [ck &&& 0xff, ck >>> 8, 0x17] with htail
  have hlen : pre.length = 4 + data.length := by simp [hpre]; omega
  have h0 : (pre ++ tail3)[0]? = some 0x01 := by simp [hpre]
  have h1 : (pre ++ tail3)[1]? = some command := by simp [hpre]
  have h2 : (pre ++ tail3)[2]? = some data.length := by simp [hpre]
  have h3 : (pre ++ tail3)[3]? = some 0 := by simp [hpre]
  have h4 : (pre ++ tail3)[4 + data.length]? = some (ck &&& 0xff) := by
    rw [List.getElem?_append_right (by omega : pre.length ≤ 4 + data.length)]
    rw [hlen]
    simp [htail]
  have h5 : (pre ++ tail3)[4 + data.length + 1]? = some (ck >>> 8) := by
    rw [List.getElem?_append_right (by omega : pre.length ≤ 4 + data.length + 1)]
    rw [hlen]
    simp [htail, show 4 + data.length + 1 - (4 + data.length) = 1 by omega]
  have h6 : (pre ++ tail3)[4 + data.length + 2]? = some 0x17 := by
    rw [List.getElem?_append_right (by omega : pre.length ≤ 4 + data.length + 2)]
    rw [hlen]
    simp [htail, show 4 + data.length + 2 - (4 + data.length) = 2 by omega]
  have htake : (pre ++ tail3).take (4 + data.length) = pre := List.take_left' hlen
  have hdata_if : (if 0 < data.length then ((pre ++ tail3).drop 4).take data.length else []) = data := by
    by_cases hdl : 0 < data.length
    · rw [if_pos hdl]
      have hd4 : (pre ++ tail3).drop 4 = data ++ tail3 := by simp [hpre]
      rw [hd4, List.take_left' rfl]
    · rw [if_neg hdl]
      have : data = [] := List.length_eq_zero.1 (by omega)
      rw [this]
  have hcr : (ck &&& 0xff) ||| ((ck >>> 8) <<< 8) = ck := by
    rw [and_255_eq_mod, shiftRight8_eq_div, lor_bytes_recombine]
  rw [hE]
  simp only [Bootloader._parse_response]
  simp [Nat.zero_shiftLeft, Nat.zero_or, h0, h1, h2, h3, h4, h5, h6, hs,
    htake, hdata_if, hcr, ← hck]

/-- C1: the spec requires that a received frame whose status byte is not
one of the eleven codes in `STATUSES` is decoded without raising, the
status being classified as the generic unknown outcome.  The code instead
raises `KeyError` at the dict lookup (modelled by `none`), although the
response dict is pre-initialised with the `"BOOTLOADER_ERR_UNK"` default
the spec describes.  Exhibited at the frame
`[0x01, 0x01, 0x00, 0x00, 0xfe, 0xff, 0x17]`: status byte `0x01` is not
in the table, framing and checksum are valid, yet decoding yields `none`
rather than a structured response. -/
theorem unknown_status_byte_raises :
    Bootloader.statusLookup 0x01 = none ∧
    Bootloader._checksum [0x01, 0x01, 0x00, 0x00] = 0xfffe ∧
    Bootloader._parse_response [0x01, 0x01, 0x00, 0x00, 0xfe, 0xff, 0x17] = none := by
  refine ⟨rfl, by decide, rfl⟩

/-- C5: the packet-domain checksum of any byte sequence is the
two's-complement negation of the byte sum modulo 65536 — it lies in
`[0, 65535]` and adding it to the byte sum cancels modulo 65536 — and in
an encoded packet it is computed over every byte from the start marker
through the payload inclusive and stored little-endian (low byte first)
just before the end marker. -/
theorem checksum_is_neg_sum_and_stored_le :
    (∀ data : List Nat, Bootloader._checksum data < 65536 ∧
        (data.sum + Bootloader._checksum data) % 65536 = 0) ∧
    (∀ (command : Nat) (data : List Nat), data.length ≤ 57 →
        Bootloader._make_packet command data =
          some (([0x01, command, data.length, 0] ++ data) ++
            [Bootloader._checksum ([0x01, command, data.length, 0] ++ data) % 256,
             Bootloader._checksum ([0x01, command, data.length, 0] ++ data) / 256,
             0x17])) := by
  constructor
  · intro data
    exact ⟨bootloader_checksum_lt data, bootloader_checksum_cancels data⟩
  · intro command data h
    rw [make_packet_eq command data h]
    have hmask : data.length &&& 0xff = data.length := by
      rw [and_255_eq_mod]; exact Nat.mod_eq_of_lt (by omega)
    have hshift : data.length >>> 8 = 0 := by
      rw [shiftRight8_eq_div]; omega
    unfold Bootloader.packet_bytes
    simp only [hmask, hshift, and_255_eq_mod, shiftRight8_eq_div]

/-- Witness for C5 at `command = 0`, `data = [9, 8, 7]`. -/
theorem checksum_is_neg_sum_and_stored_le_witness :
    ([9, 8, 7] : List Nat).length ≤ 57 ∧
    Bootloader._make_packet 0 [9, 8, 7] =
      some (([0x01, 0, ([9, 8, 7] : List Nat).length, 0] ++ [9, 8, 7]) ++
        [Bootloader._checksum ([0x01, 0, ([9, 8, 7] : List Nat).length, 0] ++ [9, 8, 7]) % 256,
         Bootloader._checksum ([0x01, 0, ([9, 8, 7] : List Nat).length, 0] ++ [9, 8, 7]) / 256,
         0x17]) :=
  ⟨by decide, checksum_is_neg_sum_and_stored_le.2 0 [9, 8, 7] (by decide)⟩

/-- C4 (counterexample): the round-trip claim fails for command bytes that
are not status codes: `0x38` (enter bootloader) is not in `STATUSES`, so
decoding the frame encoded for it raises (`none`) at the status lookup
even though encoding succeeded. -/
theorem roundtrip_fails_for_nonstatus_command :
    (Bootloader._make_packet 0x38 []).isSome = true ∧
    (Bootloader._make_packet 0x38 []).bind Bootloader._parse_response = none := by
  exact ⟨rfl, rfl⟩

/-- C4 (amended): for every command byte that is one of the eleven codes
of the status table and every payload of length at most 57, decoding the
frame produced by encoding succeeds, recovers the payload, and reports
`checksum_ok = true`. -/
theorem decode_encode_roundtrip (command : Nat) (s : String) (data : List Nat)
    (hs : Bootloader.statusLookup command = some s) (h : data.length ≤ 57) :
    (Bootloader._make_packet command data).bind Bootloader._parse_response =
      some { status := s, data := data, checksum_ok := true } := by
  rw [make_packet_eq command data h]
  exact parse_packet_bytes command s data hs h

/-- Witness for C4 (amended) at `command = 0`, `data = [9, 8, 7]`. -/
theorem decode_encode_roundtrip_witness :
    Bootloader.statusLookup 0 = some "CYRET_SUCCESS" ∧
    ([9, 8, 7] : List Nat).length ≤ 57 ∧
    (Bootloader._make_packet 0 [9, 8, 7]).bind Bootloader._parse_response =
      some { status := "CYRET_SUCCESS", data := [9, 8, 7], checksum_ok := true } :=
  ⟨by decide, by decide,
    decode_encode_roundtrip 0 "CYRET_SUCCESS" [9, 8, 7] (by decide) (by decide)⟩

theorem send_command_eq (st : Bootloader.State) (command : Nat) (data : List Nat)
    (r : List Nat) (rest : List (List Nat)) (resp : Bootloader.Response)
    (hread : st.device.toRead = r :: rest)
    (hparse : Bootloader._parse_response r = some resp)
    (h : data.length ≤ 57) :
    Bootloader.send_command st command data =
      some (resp,
        { st with device :=
            { written := st.device.written ++ [Bootloader.packet_bytes command data],
              toRead := rest } }) := by
  unfold Bootloader.send_command Bootloader.Device.write Bootloader.Device.read
  rw [make_packet_eq command data h, hread]
  simp [hparse]

theorem send_command_some_inv {st : Bootloader.State} {command : Nat}
    {data : List Nat} {resp : Bootloader.Response} {st' : Bootloader.State}
    (h : Bootloader.send_command st command data = some (resp, st')) :
    data.length ≤ 57 ∧
    ∃ r rest, st.device.toRead = r :: rest ∧
      Bootloader._parse_response r = some resp ∧
      st' = { st with device :=
        { written := st.device.written ++ [Bootloader.packet_bytes command data],
          toRead := rest } } := by
  unfold Bootloader.send_command Bootloader.Device.write Bootloader.Device.read at h
  cases hmp : Bootloader._make_packet command data with
  | none => rw [hmp] at h; cases h
  | some p =>
    obtain ⟨hlen, hp⟩ := make_packet_some_inv hmp
    rw [hmp] at h
    cases hread : st.device.toRead with
    | nil => rw [hread] at h; cases h
    | cons r rest =>
      rw [hread] at h
      simp only [Option.some_bind] at h
      simp at h
      cases hpr : Bootloader._parse_response r with
      | none => rw [hpr] at h; simp at h
      | some resp2 =>
        rw [hpr] at h
        simp at h
        obtain ⟨h1, h2⟩ := h
        subst h1
        refine ⟨hlen, r, rest, rfl, hpr, ?_⟩
        rw [← h2, hp]

theorem if_bool_pair {α : Type} (c : Bool) (x : α) :
    (if c = true then some (true, x) else some (false, x)) = some (c, x) := by
  cases c <;> simp

theorem send_data_eq (st : Bootloader.State) (data : List Nat)
    (r : List Nat) (rest : List (List Nat)) (resp : Bootloader.Response)
    (hread : st.device.toRead = r :: rest)
    (hparse : Bootloader._parse_response r = some resp)
    (h : data.length ≤ 57) :
    Bootloader.send_data st data =
      some ((resp.checksum_ok && (resp.status == "CYRET_SUCCESS")),
        { st with device :=
            { written := st.device.written ++ [Bootloader.packet_bytes 0x37 data],
              toRead := rest } }) := by
  simp only [Bootloader.send_data]
  rw [send_command_eq st 0x37 data r rest resp hread hparse h]
  exact if_bool_pair _ _

theorem erase_row_eq (st : Bootloader.State) (array_id row_number : Nat)
    (r : List Nat) (rest : List (List Nat)) (resp : Bootloader.Response)
    (hread : st.device.toRead = r :: rest)
    (hparse : Bootloader._parse_response r = some resp) :
    Bootloader.erase_row st array_id row_number =
      some ((resp.checksum_ok && (resp.status == "CYRET_SUCCESS")),
        { st with device :=
            { written := st.device.written ++
                [Bootloader.packet_bytes 0x34 [array_id, row_number &&& 0xff, row_number >>> 8]],
              toRead := rest } }) := by
  simp only [Bootloader.erase_row]
  rw [send_command_eq st 0x34 _ r rest resp hread hparse (by simp)]
  exact if_bool_pair _ _

theorem program_row_eq (st : Bootloader.State) (array_id row_number : Nat)
    (data : List Nat)
    (r : List Nat) (rest : List (List Nat)) (resp : Bootloader.Response)
    (hread : st.device.toRead = r :: rest)
    (hparse : Bootloader._parse_response r = some resp)
    (h : data.length ≤ 54) :
    Bootloader.program_row st array_id row_number data =
      some ((resp.checksum_ok && (resp.status == "CYRET_SUCCESS")),
        { st with device :=
            { written := st.device.written ++
                [Bootloader.packet_bytes 0x39
                  ([array_id, row_number &&& 0xff, row_number >>> 8] ++ data)],
              toRead := rest } }) := by
  simp only [Bootloader.program_row]
  rw [send_command_eq st 0x39 _ r rest resp hread hparse (by simp; omega)]
  exact if_bool_pair _ _

theorem send_data_written {st : Bootloader.State} {data : List Nat}
    {p : Bool × Bootloader.State}
    (h : Bootloader.send_data st data = some p) :
    p.2.device.written = st.device.written ++ [Bootloader.packet_bytes 0x37 data] ∧
    p.2.device.toRead = st.device.toRead.tail ∧
    p.2.jtag_id = st.jtag_id ∧
    p.2.device_revision = st.device_revision ∧
    p.2.bootloader_revision = st.bootloader_revision := by
  simp only [Bootloader.send_data] at h
  cases hsc : Bootloader.send_command st 0x37 data with
  | none => rw [hsc] at h; cases h
  | some q =>
    obtain ⟨resp0, st1⟩ := q
    rw [hsc] at h
    obtain ⟨hlen, r, rest, hread, hpr, hst⟩ := send_command_some_inv hsc
    have h' : (if (resp0.checksum_ok && (resp0.status == "CYRET_SUCCESS")) = true
        then some (true, st1) else some (false, st1)) = some p := h
    have hp2 : p.2 = st1 := by
      by_cases hc : (resp0.checksum_ok && (resp0.status == "CYRET_SUCCESS")) = true
      · rw [if_pos hc] at h'; cases h'; rfl
      · rw [if_neg hc] at h'; cases h'; rfl
    rw [hp2, hst]
    simp [hread]

theorem program_row_written {st : Bootloader.State}
    {array_id row_number : Nat} {data : List Nat}
    {p : Bool × Bootloader.State}
    (h : Bootloader.program_row st array_id row_number data = some p) :
    p.2.device.written = st.device.written ++
      [Bootloader.packet_bytes 0x39
        ([array_id, row_number &&& 0xff, row_number >>> 8] ++ data)] ∧
    p.2.device.toRead = st.device.toRead.tail ∧
    p.2.jtag_id = st.jtag_id ∧
    p.2.device_revision = st.device_revision ∧
    p.2.bootloader_revision = st.bootloader_revision := by
  simp only [Bootloader.program_row] at h
  cases hsc : Bootloader.send_command st 0x39
      ([array_id, row_number &&& 0xff, row_number >>> 8] ++ data) with
  | none => rw [hsc] at h; cases h
  | some q =>
    obtain ⟨resp0, st1⟩ := q
    rw [hsc] at h
    obtain ⟨hlen, r, rest, hread, hpr, hst⟩ := send_command_some_inv hsc
    have h' : (if (resp0.checksum_ok && (resp0.status == "CYRET_SUCCESS")) = true
        then some (true, st1) else some (false, st1)) = some p := h
    have hp2 : p.2 = st1 := by
      by_cases hc : (resp0.checksum_ok && (resp0.status == "CYRET_SUCCESS")) = true
      · rw [if_pos hc] at h'; cases h'; rfl
      · rw [if_neg hc] at h'; cases h'; rfl
    rw [hp2, hst]
    simp [hread]

theorem lor_32bit_le (b0 b1 b2 b3 : Nat)
    (h0 : b0 < 256) (h1 : b1 < 256) (h2 : b2 < 256) (_h3 : b3 < 256) :
    ((b0 ||| (b1 <<< 8)) ||| (b2 <<< 16)) ||| (b3 <<< 24) =
      b0 + 256 * b1 + 65536 * b2 + 16777216 * b3 := by
  have p8 : (2:Nat) ^ 8 = 256 := by norm_num
  have p16 : (2:Nat) ^ 16 = 65536 := by norm_num
  have p24 : (2:Nat) ^ 24 = 16777216 := by norm_num
  have e1 := lor_shiftLeft_eq_add b0 b1 8 (by rw [p8]; exact h0)
  have e2 := lor_shiftLeft_eq_add (b0 ||| (b1 <<< 8)) b2 16 (by rw [p16, e1, p8]; omega)
  have e3 := lor_shiftLeft_eq_add ((b0 ||| (b1 <<< 8)) ||| (b2 <<< 16)) b3 24
    (by rw [p24, e2, e1, p8, p16]; omega)
  rw [e3, e2, e1, p8, p16, p24]
  ring

/-- C6: on a response with valid checksum, success status and a payload of
at least 8 bytes, `enter_bootloader` reports success, reads the jtag id
little-endian from payload bytes 0-3, the device revision from byte 4, and
the bootloader revision from bytes 5-7 reversed. -/
theorem enter_success_sets_identity
    (st : Bootloader.State) (r : List Nat) (rest : List (List Nat))
    (resp : Bootloader.Response) (b0 b1 b2 b3 b4 b5 b6 b7 : Nat) (ds : List Nat)
    (hread : st.device.toRead = r :: rest)
    (hparse : Bootloader._parse_response r = some resp)
    (hok : resp.checksum_ok = true)
    (hstat : resp.status = "CYRET_SUCCESS")
    (hdata : resp.data = b0 :: b1 :: b2 :: b3 :: b4 :: b5 :: b6 :: b7 :: ds)
    (h0 : b0 < 256) (h1 : b1 < 256) (h2 : b2 < 256) (h3 : b3 < 256) :
    Bootloader.enter_bootloader st =
      some (true,
        { st with
            device := { written := st.device.written ++ [Bootloader.packet_bytes 0x38 []],
                        toRead := rest }
            jtag_id := some (b0 + 256 * b1 + 65536 * b2 + 16777216 * b3)
            device_revision := some b4
            bootloader_revision := some [b7, b6, b5] }) := by
  simp only [Bootloader.enter_bootloader]
  rw [send_command_eq st 0x38 [] r rest resp hread hparse (by simp)]
  simp [hok, hstat, hdata, lor_32bit_le b0 b1 b2 b3 h0 h1 h2 h3]

/-- Helper: `enter_bootloader` on a response that is not a checksum-valid
success returns `false` and only consumes the transport I/O. -/
theorem enter_failure_eq
    (st : Bootloader.State) (r : List Nat) (rest : List (List Nat))
    (resp : Bootloader.Response)
    (hread : st.device.toRead = r :: rest)
    (hparse : Bootloader._parse_response r = some resp)
    (hfail : ¬(resp.checksum_ok = true ∧ resp.status = "CYRET_SUCCESS")) :
    Bootloader.enter_bootloader st =
      some (false,
        { device := { written := st.device.written ++ [Bootloader.packet_bytes 0x38 []],
                      toRead := rest }
          jtag_id := st.jtag_id
          device_revision := st.device_revision
          bootloader_revision := st.bootloader_revision }) := by
  simp only [Bootloader.enter_bootloader]
  rw [send_command_eq st 0x38 [] r rest resp hread hparse (by simp)]
  by_cases hck : resp.checksum_ok = true
  · have hst : resp.status ≠ "CYRET_SUCCESS" := fun hs => hfail ⟨hck, hs⟩
    simp [hck, hst]
  · simp only [Bool.not_eq_true] at hck
    simp [hck]

/-- C9: each of `erase_row`, `send_data` and `program_row` returns success
exactly when the response has both a valid checksum and the success
status. -/
theorem command_success_iff_checksum_and_status :
    (∀ (st : Bootloader.State) (array_id row_number : Nat) (r : List Nat)
        (rest : List (List Nat)) (resp : Bootloader.Response),
      st.device.toRead = r :: rest →
      Bootloader._parse_response r = some resp →
      ∃ st', Bootloader.erase_row st array_id row_number =
        some ((resp.checksum_ok && (resp.status == "CYRET_SUCCESS")), st')) ∧
    (∀ (st : Bootloader.State) (data : List Nat) (r : List Nat)
        (rest : List (List Nat)) (resp : Bootloader.Response),
      st.device.toRead = r :: rest →
      Bootloader._parse_response r = some resp →
      data.length ≤ 57 →
      ∃ st', Bootloader.send_data st data =
        some ((resp.checksum_ok && (resp.status == "CYRET_SUCCESS")), st')) ∧
    (∀ (st : Bootloader.State) (array_id row_number : Nat) (data : List Nat)
        (r : List Nat) (rest : List (List Nat)) (resp : Bootloader.Response),
      st.device.toRead = r :: rest →
      Bootloader._parse_response r = some resp →
      data.length ≤ 54 →
      ∃ st', Bootloader.program_row st array_id row_number data =
        some ((resp.checksum_ok && (resp.status == "CYRET_SUCCESS")), st')) := by
  refine ⟨?_, ?_, ?_⟩
  · intro st array_id row_number r rest resp hread hparse
    exact ⟨_, erase_row_eq st array_id row_number r rest resp hread hparse⟩
  · intro st data r rest resp hread hparse h
    exact ⟨_, send_data_eq st data r rest resp hread hparse h⟩
  · intro st array_id row_number data r rest resp hread hparse h
    exact ⟨_, program_row_eq st array_id row_number data r rest resp hread hparse h⟩

/-- Witness for C9 at a concrete state whose queue holds one valid
success frame, and one with a valid frame whose status is an error. -/
theorem command_success_iff_checksum_and_status_witness :
    ((⟨⟨[], [[1, 0, 0, 0, 0xff, 0xff, 0x17]]⟩, none, none, none⟩ :
        Bootloader.State).device.toRead = [1, 0, 0, 0, 0xff, 0xff, 0x17] :: []) ∧
    Bootloader._parse_response [1, 0, 0, 0, 0xff, 0xff, 0x17] =
      some ⟨"CYRET_SUCCESS", [], true⟩ ∧
    (∃ st', Bootloader.erase_row
        ⟨⟨[], [[1, 0, 0, 0, 0xff, 0xff, 0x17]]⟩, none, none, none⟩ 1 2 =
      some ((true && ("CYRET_SUCCESS" == "CYRET_SUCCESS")), st')) :=
  ⟨rfl, by decide,
    command_success_iff_checksum_and_status.1
      ⟨⟨[], [[1, 0, 0, 0, 0xff, 0xff, 0x17]]⟩, none, none, none⟩ 1 2
      [1, 0, 0, 0, 0xff, 0xff, 0x17] [] ⟨"CYRET_SUCCESS", [], true⟩ rfl (by decide)⟩

/-- C3 (counterexample): with one valid success frame queued, calling
`exit_bootloader` and then `erase_row` does not fail fast: the erase
returns `true` and a second packet lands on the transport trace. -/
theorem exit_then_erase_still_writes :
    ((Bootloader.exit_bootloader
        ⟨⟨[], [[1, 0, 0, 0, 0xff, 0xff, 0x17]]⟩, none, none, none⟩).bind
      (fun st1 => (Bootloader.erase_row st1 0 0).map
        (fun p => (p.1, p.2.device.written.length)))) = some (true, 2) := by
  decide

/-- C3 (amended): `exit_bootloader` only writes the exit packet — it reads
nothing, changes no attribute, and records no terminal state — and every
command attempted afterwards still performs its transport write and read
as usual. -/
theorem exit_no_guard_commands_still_write :
    (∀ st : Bootloader.State, Bootloader.exit_bootloader st =
      some { st with device :=
        { written := st.device.written ++ [Bootloader.packet_bytes 0x3b []],
          toRead := st.device.toRead } }) ∧
    (∀ (st st1 : Bootloader.State) (array_id row_number : Nat) (r : List Nat)
        (rest : List (List Nat)) (resp : Bootloader.Response),
      Bootloader.exit_bootloader st = some st1 →
      st1.device.toRead = r :: rest →
      Bootloader._parse_response r = some resp →
      ∃ b st2, Bootloader.erase_row st1 array_id row_number = some (b, st2) ∧
        st2.device.written = st1.device.written ++
          [Bootloader.packet_bytes 0x34 [array_id, row_number &&& 0xff, row_number >>> 8]]) ∧
    (∀ (st st1 : Bootloader.State) (data : List Nat) (r : List Nat)
        (rest : List (List Nat)) (resp : Bootloader.Response),
      Bootloader.exit_bootloader st = some st1 →
      st1.device.toRead = r :: rest →
      Bootloader._parse_response r = some resp →
      data.length ≤ 57 →
      ∃ b st2, Bootloader.send_data st1 data = some (b, st2) ∧
        st2.device.written = st1.device.written ++ [Bootloader.packet_bytes 0x37 data]) ∧
    (∀ (st st1 : Bootloader.State) (array_id row_number : Nat) (data : List Nat)
        (r : List Nat) (rest : List (List Nat)) (resp : Bootloader.Response),
      Bootloader.exit_bootloader st = some st1 →
      st1.device.toRead = r :: rest →
      Bootloader._parse_response r = some resp →
      data.length ≤ 54 →
      ∃ b st2, Bootloader.program_row st1 array_id row_number data = some (b, st2) ∧
        st2.device.written = st1.device.written ++
          [Bootloader.packet_bytes 0x39
            ([array_id, row_number &&& 0xff, row_number >>> 8] ++ data)]) ∧
    (∀ (st st1 : Bootloader.State) (r : List Nat)
        (rest : List (List Nat)) (resp : Bootloader.Response),
      Bootloader.exit_bootloader st = some st1 →
      st1.device.toRead = r :: rest →
      Bootloader._parse_response r = some resp →
      ¬(resp.checksum_ok = true ∧ resp.status = "CYRET_SUCCESS") →
      ∃ st2, Bootloader.enter_bootloader st1 = some (false, st2) ∧
        st2.device.written = st1.device.written ++ [Bootloader.packet_bytes 0x38 []]) := by
  refine ⟨?_, ?_, ?_, ?_, ?_⟩
  · intro st
    simp only [Bootloader.exit_bootloader]
    rw [make_packet_eq 0x3b [] (by simp)]
    rfl
  · intro st st1 array_id row_number r rest resp _ hread hparse
    exact ⟨_, _, erase_row_eq st1 array_id row_number r rest resp hread hparse, by simp [hread]⟩
  · intro st st1 data r rest resp _ hread hparse h
    exact ⟨_, _, send_data_eq st1 data r rest resp hread hparse h, by simp [hread]⟩
  · intro st st1 array_id row_number data r rest resp _ hread hparse h
    exact ⟨_, _, program_row_eq st1 array_id row_number data r rest resp hread hparse h,
      by simp [hread]⟩
  · intro st st1 r rest resp _ hread hparse hfail
    exact ⟨_, enter_failure_eq st1 r rest resp hread hparse hfail, by simp [hread]⟩

/-- Witness for C6: a queued success frame with payload
`[1,2,3,4,5,6,7,8]` yields jtag id `0x04030201`, device revision `0x05`
and bootloader revision `[8, 7, 6]`. -/
theorem enter_success_sets_identity_witness :
    Bootloader._parse_response [1, 0, 8, 0, 1, 2, 3, 4, 5, 6, 7, 8, 0xd3, 0xff, 0x17] =
      some ⟨"CYRET_SUCCESS", [1, 2, 3, 4, 5, 6, 7, 8], true⟩ ∧
    Bootloader.enter_bootloader
        ⟨⟨[], [[1, 0, 8, 0, 1, 2, 3, 4, 5, 6, 7, 8, 0xd3, 0xff, 0x17]]⟩, none, none, none⟩ =
      some (true,
        { device := { written := [] ++ [Bootloader.packet_bytes 0x38 []], toRead := [] }
          jtag_id := some (1 + 256 * 2 + 65536 * 3 + 16777216 * 4)
          device_revision := some 5
          bootloader_revision := some [8, 7, 6] }) :=
  ⟨by decide,
    enter_success_sets_identity
      ⟨⟨[], [[1, 0, 8, 0, 1, 2, 3, 4, 5, 6, 7, 8, 0xd3, 0xff, 0x17]]⟩, none, none, none⟩
      [1, 0, 8, 0, 1, 2, 3, 4, 5, 6, 7, 8, 0xd3, 0xff, 0x17] []
      ⟨"CYRET_SUCCESS", [1, 2, 3, 4, 5, 6, 7, 8], true⟩
      1 2 3 4 5 6 7 8 [] rfl (by decide) rfl rfl rfl
      (by decide) (by decide) (by decide) (by decide)⟩

/-- C7: on a response whose checksum is invalid or whose status is not
success, `enter_bootloader` reports failure and leaves the jtag id, device
revision and bootloader revision attributes exactly as they were. -/
theorem enter_failure_keeps_identity
    (st : Bootloader.State) (r : List Nat) (rest : List (List Nat))
    (resp : Bootloader.Response)
    (hread : st.device.toRead = r :: rest)
    (hparse : Bootloader._parse_response r = some resp)
    (hfail : ¬(resp.checksum_ok = true ∧ resp.status = "CYRET_SUCCESS")) :
    Bootloader.enter_bootloader st =
      some (false,
        { device := { written := st.device.written ++ [Bootloader.packet_bytes 0x38 []],
                      toRead := rest }
          jtag_id := st.jtag_id
          device_revision := st.device_revision
          bootloader_revision := st.bootloader_revision }) :=
  enter_failure_eq st r rest resp hread hparse hfail

/-- Witness for C7: an error-status frame with a valid checksum leaves a
previously set jtag id and the unset revisions untouched and reports
failure. -/
theorem enter_failure_keeps_identity_witness :
    Bootloader._parse_response [1, 4, 0, 0, 0xfb, 0xff, 0x17] =
      some ⟨"BOOTLOADER_ERR_DATA", [], true⟩ ∧
    ¬((⟨"BOOTLOADER_ERR_DATA", [], true⟩ : Bootloader.Response).checksum_ok = true ∧
        (⟨"BOOTLOADER_ERR_DATA", [], true⟩ : Bootloader.Response).status = "CYRET_SUCCESS") ∧
    Bootloader.enter_bootloader
        ⟨⟨[], [[1, 4, 0, 0, 0xfb, 0xff, 0x17]]⟩, some 7, none, none⟩ =
      some (false,
        { device := { written := [] ++ [Bootloader.packet_bytes 0x38 []], toRead := [] }
          jtag_id := some 7
          device_revision := none
          bootloader_revision := none }) :=
  ⟨by decide, by decide,
    enter_failure_keeps_identity
      ⟨⟨[], [[1, 4, 0, 0, 0xfb, 0xff, 0x17]]⟩, some 7, none, none⟩
      [1, 4, 0, 0, 0xfb, 0xff, 0x17] [] ⟨"BOOTLOADER_ERR_DATA", [], true⟩
      rfl (by decide) (by decide)⟩

/-- Witness for C3 (amended): after exiting, an `erase_row` still writes
its packet onto the trace. -/
theorem exit_no_guard_commands_still_write_witness :
    Bootloader.exit_bootloader ⟨⟨[], [[1, 0, 0, 0, 0xff, 0xff, 0x17]]⟩, none, none, none⟩ =
      some ⟨⟨[Bootloader.packet_bytes 0x3b []], [[1, 0, 0, 0, 0xff, 0xff, 0x17]]⟩,
        none, none, none⟩ ∧
    (∃ b st2, Bootloader.erase_row
        ⟨⟨[Bootloader.packet_bytes 0x3b []], [[1, 0, 0, 0, 0xff, 0xff, 0x17]]⟩,
          none, none, none⟩ 4 5 = some (b, st2) ∧
      st2.device.written =
        (⟨⟨[Bootloader.packet_bytes 0x3b []], [[1, 0, 0, 0, 0xff, 0xff, 0x17]]⟩,
          none, none, none⟩ : Bootloader.State).device.written ++
          [Bootloader.packet_bytes 0x34 [4, 5 &&& 0xff, 5 >>> 8]]) :=
  ⟨exit_no_guard_commands_still_write.1 _,
   exit_no_guard_commands_still_write.2.1
     ⟨⟨[], [[1, 0, 0, 0, 0xff, 0xff, 0x17]]⟩, none, none, none⟩
     ⟨⟨[Bootloader.packet_bytes 0x3b []], [[1, 0, 0, 0, 0xff, 0xff, 0x17]]⟩, none, none, none⟩
     4 5 [1, 0, 0, 0, 0xff, 0xff, 0x17] [] ⟨"CYRET_SUCCESS", [], true⟩
     (exit_no_guard_commands_still_write.1 _) rfl (by decide)⟩

theorem max_data_length_eq : Bootloader.MAX_DATA_LENGTH = 48 := rfl

theorem chunk_loop_written (data : List Nat) :
    ∀ (l : List Nat) (st st' : Bootloader.State),
      l.foldlM (fun s i => do
        let (_, s') ← Bootloader.send_data s
          ((data.drop (Bootloader.MAX_DATA_LENGTH * i)).take Bootloader.MAX_DATA_LENGTH)
        pure s') st = some st' →
      st'.device.written = st.device.written ++
        l.map (fun i => Bootloader.packet_bytes 0x37
          ((data.drop (Bootloader.MAX_DATA_LENGTH * i)).take Bootloader.MAX_DATA_LENGTH)) := by
  intro l
  induction l with
  | nil =>
    intro st st' h
    simp only [List.foldlM_nil] at h
    cases h
    simp
  | cons a l ih =>
    intro st st' h
    simp only [List.foldlM_cons] at h
    cases hsd : Bootloader.send_data st
        ((data.drop (Bootloader.MAX_DATA_LENGTH * a)).take Bootloader.MAX_DATA_LENGTH) with
    | none => rw [hsd] at h; cases h
    | some p =>
      rw [hsd] at h
      have hrec : l.foldlM (fun s i => do
          let (_, s') ← Bootloader.send_data s
            ((data.drop (Bootloader.MAX_DATA_LENGTH * i)).take Bootloader.MAX_DATA_LENGTH)
          pure s') p.2 = some st' := h
      have hw := (send_data_written hsd).1
      rw [ih p.2 st' hrec, hw]
      simp

theorem chunk_loop_runs (data : List Nat) (r : List Nat) (resp : Bootloader.Response)
    (hparse : Bootloader._parse_response r = some resp) :
    ∀ (l : List Nat) (st : Bootloader.State) (rest : List (List Nat)),
      st.device.toRead = List.replicate l.length r ++ rest →
      ∃ st', l.foldlM (fun s i => do
          let (_, s') ← Bootloader.send_data s
            ((data.drop (Bootloader.MAX_DATA_LENGTH * i)).take Bootloader.MAX_DATA_LENGTH)
          pure s') st = some st' ∧
        st'.device.toRead = rest ∧
        st'.device.written = st.device.written ++
          l.map (fun i => Bootloader.packet_bytes 0x37
            ((data.drop (Bootloader.MAX_DATA_LENGTH * i)).take Bootloader.MAX_DATA_LENGTH)) := by
  intro l
  induction l with
  | nil =>
    intro st rest hread
    refine ⟨st, ?_, ?_, by simp⟩
    · simp
    · simpa using hread
  | cons a l ih =>
    intro st rest hread
    have hread1 : st.device.toRead = r :: (List.replicate l.length r ++ rest) := by
      simpa [List.replicate_succ] using hread
    have hlen : ((data.drop (Bootloader.MAX_DATA_LENGTH * a)).take
        Bootloader.MAX_DATA_LENGTH).length ≤ 57 := by
      have := List.length_take_le Bootloader.MAX_DATA_LENGTH
        (data.drop (Bootloader.MAX_DATA_LENGTH * a))
      simp only [max_data_length_eq] at this ⊢
      omega
    have hsd := send_data_eq st
      ((data.drop (Bootloader.MAX_DATA_LENGTH * a)).take Bootloader.MAX_DATA_LENGTH)
      r (List.replicate l.length r ++ rest) resp hread1 hparse hlen
    obtain ⟨st', hfold, hrest, hwr⟩ := ih
      { st with device :=
          { written := st.device.written ++ [Bootloader.packet_bytes 0x37
              ((data.drop (Bootloader.MAX_DATA_LENGTH * a)).take Bootloader.MAX_DATA_LENGTH)],
            toRead := List.replicate l.length r ++ rest } }
      rest rfl
    refine ⟨st', ?_, hrest, ?_⟩
    · simp only [List.foldlM_cons]
      rw [hsd]
      exact hfold
    · rw [hwr]
      simp

theorem flash_row_written {st st' : Bootloader.State} {row : Nat × Nat × List Nat}
    (h : Bootloader.flash_row st row = some st') :
    st'.device.written = st.device.written ++ Spec.row_packets row.1 row.2.1 row.2.2 := by
  obtain ⟨array_id, row_number, data⟩ := row
  simp only [Bootloader.flash_row] at h
  by_cases hge : Bootloader.MAX_DATA_LENGTH ≤ data.length
  · rw [if_pos hge] at h
    by_cases hrem : 0 < data.length % Bootloader.MAX_DATA_LENGTH
    · rw [if_pos hrem] at h
      cases hfold : (List.range (data.length / Bootloader.MAX_DATA_LENGTH)).foldlM
          (fun s i => do
            let (_, s') ← Bootloader.send_data s
              ((data.drop (Bootloader.MAX_DATA_LENGTH * i)).take Bootloader.MAX_DATA_LENGTH)
            pure s') st with
      | none => rw [hfold] at h; cases h
      | some st2 =>
        rw [hfold] at h
        have h1 : (Bootloader.program_row st2 array_id row_number
            ((data.drop (Bootloader.MAX_DATA_LENGTH * (data.length / Bootloader.MAX_DATA_LENGTH))).take
              (data.length % Bootloader.MAX_DATA_LENGTH)) >>=
              fun p => pure p.2) = some st' := h
        cases hpr : Bootloader.program_row st2 array_id row_number
            ((data.drop (Bootloader.MAX_DATA_LENGTH * (data.length / Bootloader.MAX_DATA_LENGTH))).take
              (data.length % Bootloader.MAX_DATA_LENGTH)) with
        | none => rw [hpr] at h1; cases h1
        | some p =>
          rw [hpr] at h1
          have h2 : some p.2 = some st' := h1
          cases h2
          have hw2 := chunk_loop_written data _ st st2 hfold
          have hw3 := (program_row_written hpr).1
          rw [hw3, hw2]
          simp only [max_data_length_eq] at *
          have hge' : ¬ data.length < 48 := by omega
          have hfc : (data.drop (48 * (data.length / 48))).take (data.length % 48) =
              data.drop (48 * (data.length / 48)) := by
            apply List.take_of_length_le
            simp only [List.length_drop]
            omega
          simp [Spec.row_packets, Spec.send_chunks, Spec.final_chunk, hge', hrem, hfc]
    · rw [if_neg hrem] at h
      cases hfold : (List.range (data.length / Bootloader.MAX_DATA_LENGTH - 1)).foldlM
          (fun s i => do
            let (_, s') ← Bootloader.send_data s
              ((data.drop (Bootloader.MAX_DATA_LENGTH * i)).take Bootloader.MAX_DATA_LENGTH)
            pure s') st with
      | none => rw [hfold] at h; cases h
      | some st2 =>
        rw [hfold] at h
        have h1 : (Bootloader.program_row st2 array_id row_number
            ((data.drop (Bootloader.MAX_DATA_LENGTH * (data.length / Bootloader.MAX_DATA_LENGTH - 1))).take
              Bootloader.MAX_DATA_LENGTH) >>=
              fun p => pure p.2) = some st' := h
        cases hpr : Bootloader.program_row st2 array_id row_number
            ((data.drop (Bootloader.MAX_DATA_LENGTH * (data.length / Bootloader.MAX_DATA_LENGTH - 1))).take
              Bootloader.MAX_DATA_LENGTH) with
        | none => rw [hpr] at h1; cases h1
        | some p =>
          rw [hpr] at h1
          have h2 : some p.2 = some st' := h1
          cases h2
          have hw2 := chunk_loop_written data _ st st2 hfold
          have hw3 := (program_row_written hpr).1
          rw [hw3, hw2]
          simp only [max_data_length_eq] at *
          have hge' : ¬ data.length < 48 := by omega
          have hfc : (data.drop (48 * (data.length / 48 - 1))).take 48 =
              data.drop (48 * (data.length / 48 - 1)) := by
            apply List.take_of_length_le
            simp only [List.length_drop]
            omega
          simp [Spec.row_packets, Spec.send_chunks, Spec.final_chunk, hge', hrem, hfc]
  · rw [if_neg hge] at h
    cases hpr : Bootloader.program_row st array_id row_number data with
    | none => rw [hpr] at h; cases h
    | some p =>
      rw [hpr] at h
      have h2 : some p.2 = some st' := h
      cases h2
      have hw3 := (program_row_written hpr).1
      rw [hw3]
      simp only [max_data_length_eq] at *
      have hlt : data.length < 48 := by omega
      simp [Spec.row_packets, Spec.send_chunks, Spec.final_chunk, hlt]

theorem flash_written :
    ∀ (firmware : List (Nat × Nat × List Nat)) (st st' : Bootloader.State),
      Bootloader.flash st firmware = some st' →
      st'.device.written = st.device.written ++
        (firmware.map (fun row => Spec.row_packets row.1 row.2.1 row.2.2)).flatten := by
  intro firmware
  induction firmware with
  | nil =>
    intro st st' h
    simp only [Bootloader.flash, List.foldlM_nil] at h
    cases h
    simp
  | cons row rows ih =>
    intro st st' h
    simp only [Bootloader.flash, List.foldlM_cons] at h
    cases hrow : Bootloader.flash_row st row with
    | none => rw [hrow] at h; cases h
    | some st2 =>
      rw [hrow] at h
      have hrec : Bootloader.flash st2 rows = some st' := h
      rw [ih st2 st' hrec, flash_row_written hrow]
      simp

theorem flash_row_runs (st : Bootloader.State) (array_id row_number : Nat)
    (data : List Nat) (r : List Nat) (rest : List (List Nat))
    (resp : Bootloader.Response)
    (hread : st.device.toRead =
      List.replicate ((Spec.send_chunks data).length + 1) r ++ rest)
    (hparse : Bootloader._parse_response r = some resp) :
    ∃ st', Bootloader.flash_row st (array_id, row_number, data) = some st' ∧
      st'.device.toRead = rest ∧
      st'.device.written = st.device.written ++ Spec.row_packets array_id row_number data := by
  simp only [Bootloader.flash_row]
  by_cases hge : Bootloader.MAX_DATA_LENGTH ≤ data.length
  · rw [if_pos hge]
    have hge' : ¬ data.length < 48 := by
      simp only [max_data_length_eq] at hge; omega
    by_cases hrem : 0 < data.length % Bootloader.MAX_DATA_LENGTH
    · rw [if_pos hrem]
      have hrem' : 0 < data.length % 48 := by
        simpa only [max_data_length_eq] using hrem
      have hchunks : (Spec.send_chunks data).length = data.length / 48 := by
        simp [Spec.send_chunks, hge', hrem']
      have hread1 : st.device.toRead =
          List.replicate (List.range (data.length / Bootloader.MAX_DATA_LENGTH)).length r ++
            (r :: rest) := by
        rw [hread, hchunks]
        simp only [max_data_length_eq, List.length_range]
        rw [List.replicate_succ']
        simp
      obtain ⟨st2, hfold, hrest2, hwr2⟩ :=
        chunk_loop_runs data r resp hparse (List.range (data.length / Bootloader.MAX_DATA_LENGTH))
          st (r :: rest) hread1
      have hlenp : ((data.drop (Bootloader.MAX_DATA_LENGTH *
          (data.length / Bootloader.MAX_DATA_LENGTH))).take
            (data.length % Bootloader.MAX_DATA_LENGTH)).length ≤ 54 := by
        simp only [max_data_length_eq]
        have := List.length_take_le (data.length % 48)
          (data.drop (48 * (data.length / 48)))
        omega
      have hpr := program_row_eq st2 array_id row_number
        ((data.drop (Bootloader.MAX_DATA_LENGTH * (data.length / Bootloader.MAX_DATA_LENGTH))).take
          (data.length % Bootloader.MAX_DATA_LENGTH)) r rest resp hrest2 hparse hlenp
      refine ⟨{ st2 with device :=
          { written := st2.device.written ++
              [Bootloader.packet_bytes 0x39
                ([array_id, row_number &&& 0xff, row_number >>> 8] ++
                  (data.drop (Bootloader.MAX_DATA_LENGTH *
                    (data.length / Bootloader.MAX_DATA_LENGTH))).take
                      (data.length % Bootloader.MAX_DATA_LENGTH))],
            toRead := rest } }, ?_, ?_, ?_⟩
      · rw [hfold]
        show (Bootloader.program_row st2 array_id row_number _ >>= fun p => pure p.2) = _
        rw [hpr]
        rfl
      · simp
      · simp only []
        rw [hwr2]
        have hfc : (data.drop (48 * (data.length / 48))).take (data.length % 48) =
            data.drop (48 * (data.length / 48)) := by
          apply List.take_of_length_le
          simp only [List.length_drop]
          omega
        simp only [max_data_length_eq] at *
        simp [Spec.row_packets, Spec.send_chunks, Spec.final_chunk, hge', hrem', hfc]
    · rw [if_neg hrem]
      have hrem' : ¬ 0 < data.length % 48 := by
        simpa only [max_data_length_eq] using hrem
      have hchunks : (Spec.send_chunks data).length = data.length / 48 - 1 := by
        simp [Spec.send_chunks, hge', hrem']
      have hread1 : st.device.toRead =
          List.replicate (List.range (data.length / Bootloader.MAX_DATA_LENGTH - 1)).length r ++
            (r :: rest) := by
        rw [hread, hchunks]
        simp only [max_data_length_eq, List.length_range]
        rw [List.replicate_succ']
        simp
      obtain ⟨st2, hfold, hrest2, hwr2⟩ :=
        chunk_loop_runs data r resp hparse
          (List.range (data.length / Bootloader.MAX_DATA_LENGTH - 1)) st (r :: rest) hread1
      have hlenp : ((data.drop (Bootloader.MAX_DATA_LENGTH *
          (data.length / Bootloader.MAX_DATA_LENGTH - 1))).take
            Bootloader.MAX_DATA_LENGTH).length ≤ 54 := by
        simp only [max_data_length_eq]
        have := List.length_take_le 48
          (data.drop (48 * (data.length / 48 - 1)))
        omega
      have hpr := program_row_eq st2 array_id row_number
        ((data.drop (Bootloader.MAX_DATA_LENGTH * (data.length / Bootloader.MAX_DATA_LENGTH - 1))).take
          Bootloader.MAX_DATA_LENGTH) r rest resp hrest2 hparse hlenp
      refine ⟨{ st2 with device :=
          { written := st2.device.written ++
              [Bootloader.packet_bytes 0x39
                ([array_id, row_number &&& 0xff, row_number >>> 8] ++
                  (data.drop (Bootloader.MAX_DATA_LENGTH *
                    (data.length / Bootloader.MAX_DATA_LENGTH - 1))).take
                      Bootloader.MAX_DATA_LENGTH)],
            toRead := rest } }, ?_, ?_, ?_⟩
      · rw [hfold]
        show (Bootloader.program_row st2 array_id row_number _ >>= fun p => pure p.2) = _
        rw [hpr]
        rfl
      · simp
      · simp only []
        rw [hwr2]
        have hfc : (data.drop (48 * (data.length / 48 - 1))).take 48 =
            data.drop (48 * (data.length / 48 - 1)) := by
          apply List.take_of_length_le
          simp only [List.length_drop]
          omega
        simp only [max_data_length_eq] at *
        simp [Spec.row_packets, Spec.send_chunks, Spec.final_chunk, hge', hrem', hfc]
  · rw [if_neg hge]
    have hlt : data.length < 48 := by
      simp only [max_data_length_eq] at hge; omega
    have hchunks : Spec.send_chunks data = [] := by
      simp [Spec.send_chunks, hlt]
    have hread1 : st.device.toRead = r :: rest := by
      rw [hread, hchunks]
      simp
    have hpr := program_row_eq st array_id row_number data r rest resp hread1 hparse
      (by omega)
    refine ⟨{ st with device :=
        { written := st.device.written ++
            [Bootloader.packet_bytes 0x39
              ([array_id, row_number &&& 0xff, row_number >>> 8] ++ data)],
          toRead := rest } }, ?_, ?_, ?_⟩
    · show (Bootloader.program_row st array_id row_number data >>= fun p => pure p.2) = _
      rw [hpr]
      rfl
    · simp
    · simp [Spec.row_packets, Spec.send_chunks, Spec.final_chunk, hlt, hchunks]

theorem join_chunks (data : List Nat) :
    ∀ n : Nat, ((List.range n).map (fun i => (data.drop (48 * i)).take 48)).flatten =
      data.take (48 * n) := by
  intro n
  induction n with
  | zero => simp
  | succ n ih =>
    rw [List.range_succ, List.map_append, List.flatten_append, ih]
    simp only [List.map_cons, List.map_nil, List.flatten_cons, List.flatten_nil,
      List.append_nil]
    rw [show 48 * (n + 1) = 48 * n + 48 by ring, List.take_add]

theorem chunks_concat (data : List Nat) :
    (Spec.send_chunks data).flatten ++ Spec.final_chunk data = data := by
  unfold Spec.send_chunks Spec.final_chunk
  by_cases h1 : data.length < 48
  · simp [h1]
  · rw [if_neg h1, if_neg h1]
    by_cases h2 : 0 < data.length % 48
    · rw [if_pos h2, if_pos h2, join_chunks]
      exact List.take_append_drop _ data
    · rw [if_neg h2, if_neg h2, join_chunks]
      exact List.take_append_drop _ data

theorem send_chunks_length_le (data : List Nat) :
    ∀ c ∈ Spec.send_chunks data, c.length ≤ 48 := by
  intro c hc
  unfold Spec.send_chunks at hc
  by_cases h1 : data.length < 48
  · rw [if_pos h1] at hc
    cases hc
  · rw [if_neg h1] at hc
    by_cases h2 : 0 < data.length % 48
    · rw [if_pos h2] at hc
      obtain ⟨i, _, rfl⟩ := List.mem_map.1 hc
      have := List.length_take_le 48 (data.drop (48 * i))
      omega
    · rw [if_neg h2] at hc
      obtain ⟨i, _, rfl⟩ := List.mem_map.1 hc
      have := List.length_take_le 48 (data.drop (48 * i))
      omega

theorem final_chunk_length_le (data : List Nat) :
    (Spec.final_chunk data).length ≤ 48 := by
  unfold Spec.final_chunk
  by_cases h1 : data.length < 48
  · rw [if_pos h1]
    omega
  · rw [if_neg h1]
    by_cases h2 : 0 < data.length % 48
    · rw [if_pos h2]
      simp only [List.length_drop]
      omega
    · rw [if_neg h2]
      simp only [List.length_drop]
      omega

/-- C2: whenever the flashing loop completes, the packets written for each
row, in image order, are exactly the spec's row-splitting: the
`sendData` chunks followed by one final `programRow` per row; moreover the
chunks concatenate back to the row data, `MAX_DATA_LENGTH` is 48, and the
four cited data lengths give exactly the claimed chunk counts and sizes
(48 gives none + one 48-byte programRow; 96 gives one 48-byte sendData +
one 48-byte programRow; 100 gives two 48-byte sendData + a 4-byte
programRow; 1 gives none + a 1-byte programRow). -/
theorem flash_row_splitting_trace :
    (∀ (st st' : Bootloader.State) (firmware : List (Nat × Nat × List Nat)),
      Bootloader.flash st firmware = some st' →
      st'.device.written = st.device.written ++
        (firmware.map (fun row => Spec.row_packets row.1 row.2.1 row.2.2)).flatten) ∧
    (∀ data : List Nat, (Spec.send_chunks data).flatten ++ Spec.final_chunk data = data) ∧
    Bootloader.MAX_DATA_LENGTH = 48 ∧
    ((Spec.send_chunks (List.replicate 48 0)).map List.length = [] ∧
      (Spec.final_chunk (List.replicate 48 0)).length = 48) ∧
    ((Spec.send_chunks (List.replicate 96 0)).map List.length = [48] ∧
      (Spec.final_chunk (List.replicate 96 0)).length = 48) ∧
    ((Spec.send_chunks (List.replicate 100 0)).map List.length = [48, 48] ∧
      (Spec.final_chunk (List.replicate 100 0)).length = 4) ∧
    ((Spec.send_chunks (List.replicate 1 0)).map List.length = [] ∧
      (Spec.final_chunk (List.replicate 1 0)).length = 1) := by
  refine ⟨fun st st' fw h => flash_written fw st st' h, chunks_concat, rfl,
    by decide, by decide, by decide, by decide⟩

/-- Witness for C2: flashing the single row `(2, 3, [5])` against one
queued success frame writes exactly the predicted `programRow` packet. -/
theorem flash_row_splitting_trace_witness :
    Bootloader.flash ⟨⟨[], [[1, 0, 0, 0, 0xff, 0xff, 0x17]]⟩, none, none, none⟩
        [(2, 3, [5])] =
      some ⟨⟨[Bootloader.packet_bytes 0x39 [2, 3, 0, 5]], []⟩, none, none, none⟩ ∧
    (⟨⟨[Bootloader.packet_bytes 0x39 [2, 3, 0, 5]], []⟩, none, none, none⟩ :
        Bootloader.State).device.written =
      (⟨⟨[], [[1, 0, 0, 0, 0xff, 0xff, 0x17]]⟩, none, none, none⟩ :
        Bootloader.State).device.written ++
        (([(2, 3, [5])] : List (Nat × Nat × List Nat)).map
          (fun row => Spec.row_packets row.1 row.2.1 row.2.2)).flatten :=
  ⟨by decide,
    flash_row_splitting_trace.1
      ⟨⟨[], [[1, 0, 0, 0, 0xff, 0xff, 0x17]]⟩, none, none, none⟩
      ⟨⟨[Bootloader.packet_bytes 0x39 [2, 3, 0, 5]], []⟩, none, none, none⟩
      [(2, 3, [5])] (by decide)⟩

/-- C10: with responses available, flashing a row always succeeds —
every `sendData` chunk is at most 48 bytes, the final `programRow`
payload is at most 3 + 48 = 51 bytes, so the encoder's 57-byte payload
check cannot fail during flashing, whatever the row's data length. -/
theorem flash_payloads_within_encoder_limit
    (st : Bootloader.State) (array_id row_number : Nat) (data : List Nat)
    (r : List Nat) (rest : List (List Nat)) (resp : Bootloader.Response)
    (hread : st.device.toRead =
      List.replicate ((Spec.send_chunks data).length + 1) r ++ rest)
    (hparse : Bootloader._parse_response r = some resp) :
    (Bootloader.flash st [(array_id, row_number, data)]).isSome = true ∧
    (∀ c ∈ Spec.send_chunks data, c.length ≤ 48 ∧
      (Bootloader._make_packet 0x37 c).isSome = true) ∧
    (Spec.final_chunk data).length ≤ 48 ∧
    ([array_id, row_number &&& 0xff, row_number >>> 8] ++
      Spec.final_chunk data).length ≤ 51 ∧
    (Bootloader._make_packet 0x39
      ([array_id, row_number &&& 0xff, row_number >>> 8] ++
        Spec.final_chunk data)).isSome = true := by
  obtain ⟨st', hrow, _, _⟩ :=
    flash_row_runs st array_id row_number data r rest resp hread hparse
  refine ⟨?_, ?_, final_chunk_length_le data, ?_, ?_⟩
  · simp only [Bootloader.flash, List.foldlM_cons, List.foldlM_nil]
    rw [hrow]
    rfl
  · intro c hc
    refine ⟨send_chunks_length_le data c hc, ?_⟩
    rw [make_packet_eq 0x37 c (le_trans (send_chunks_length_le data c hc) (by norm_num))]
    rfl
  · have := final_chunk_length_le data
    simp only [List.length_append, List.length_cons, List.length_nil]
    omega
  · rw [make_packet_eq 0x39 _ (by
      have := final_chunk_length_le data
      simp only [List.length_append, List.length_cons, List.length_nil]
      omega)]
    rfl

/-- Witness for C10 at the single row `(9, 258, [7])` with one queued
success frame. -/
theorem flash_payloads_within_encoder_limit_witness :
    ((⟨⟨[], [[1, 0, 0, 0, 0xff, 0xff, 0x17]]⟩, none, none, none⟩ :
        Bootloader.State).device.toRead =
      List.replicate ((Spec.send_chunks [7]).length + 1)
        [1, 0, 0, 0, 0xff, 0xff, 0x17] ++ []) ∧
    Bootloader._parse_response [1, 0, 0, 0, 0xff, 0xff, 0x17] =
      some ⟨"CYRET_SUCCESS", [], true⟩ ∧
    (Bootloader.flash ⟨⟨[], [[1, 0, 0, 0, 0xff, 0xff, 0x17]]⟩, none, none, none⟩
      [(9, 258, [7])]).isSome = true :=
  ⟨by decide, by decide,
    (flash_payloads_within_encoder_limit
      ⟨⟨[], [[1, 0, 0, 0, 0xff, 0xff, 0x17]]⟩, none, none, none⟩
      9 258 [7] [1, 0, 0, 0, 0xff, 0xff, 0x17] []
      ⟨"CYRET_SUCCESS", [], true⟩ (by decide) (by decide)).1⟩

theorem getElem?_eq_getD {l : List Nat} {i : Nat} (h : i < l.length) :
    l[i]? = some (l.getD i 0) := by
  rw [List.getElem?_eq_getElem h]
  simp [List.getD_eq_getElem?_getD, List.getElem?_eq_getElem h]

theorem parse_line_eq (acc : List (Nat × Nat × List Nat)) (ln : List Nat)
    (hwf : Cyacd.line_wf ln) :
    Cyacd.parse_line acc ln =
      if Cyacd.line_checksum_ok ln then some (acc ++ [Cyacd.line_row ln]) else none := by
  have hlen : ln.length = 6 + Cyacd.line_data_length ln := hwf
  have g0 : ln[0]? = some (ln.getD 0 0) := getElem?_eq_getD (by omega)
  have g1 : ln[1]? = some (ln.getD 1 0) := getElem?_eq_getD (by omega)
  have g2 : ln[2]? = some (ln.getD 2 0) := getElem?_eq_getD (by omega)
  have g3 : ln[3]? = some (ln.getD 3 0) := getElem?_eq_getD (by omega)
  have g4 : ln[4]? = some (ln.getD 4 0) := getElem?_eq_getD (by omega)
  have g5 : ln[5 + ((ln.getD 3 0 <<< 8) ||| ln.getD 4 0)]? =
      some (ln.getD (5 + ((ln.getD 3 0 <<< 8) ||| ln.getD 4 0)) 0) := by
    apply getElem?_eq_getD
    have : Cyacd.line_data_length ln = (ln.getD 3 0 <<< 8) ||| ln.getD 4 0 := rfl
    omega
  simp only [Cyacd.parse_line, g0, g1, g2, g3, g4, Option.some_bind]
  show (ln[5 + (ln.getD 3 0 <<< 8 ||| ln.getD 4 0)]?.bind fun checksum =>
      if checksum = Cyacd._checksum (List.take (ln.length - 1) ln) then
        some (acc ++ [(ln.getD 0 0, ln.getD 1 0 <<< 8 ||| ln.getD 2 0,
          List.take (ln.getD 3 0 <<< 8 ||| ln.getD 4 0) (List.drop 5 ln))])
      else none) =
    if Cyacd.line_checksum_ok ln then some (acc ++ [Cyacd.line_row ln]) else none
  rw [g5]
  rfl

theorem parse_rows_go :
    ∀ (lines : List (List Nat)) (acc : List (Nat × Nat × List Nat)),
      (∀ ln ∈ lines, Cyacd.line_wf ln) →
      ((∀ ln ∈ lines, Cyacd.line_checksum_ok ln) →
        lines.foldlM Cyacd.parse_line acc = some (acc ++ lines.map Cyacd.line_row)) ∧
      ((∃ ln ∈ lines, ¬ Cyacd.line_checksum_ok ln) →
        lines.foldlM Cyacd.parse_line acc = none) := by
  intro lines
  induction lines with
  | nil =>
    intro acc _
    constructor
    · intro _
      simp
    · rintro ⟨ln, hmem, _⟩
      cases hmem
  | cons l ls ih =>
    intro acc hwf
    have hwfl : Cyacd.line_wf l := hwf l (by simp)
    have hwfs : ∀ ln ∈ ls, Cyacd.line_wf ln := fun ln h => hwf ln (by simp [h])
    constructor
    · intro hok
      have hokl : Cyacd.line_checksum_ok l := hok l (by simp)
      simp only [List.foldlM_cons]
      rw [parse_line_eq acc l hwfl, if_pos hokl]
      show ls.foldlM Cyacd.parse_line (acc ++ [Cyacd.line_row l]) =
        some (acc ++ (l :: ls).map Cyacd.line_row)
      rw [(ih (acc ++ [Cyacd.line_row l]) hwfs).1 (fun ln h => hok ln (by simp [h]))]
      simp
    · rintro ⟨ln, hmem, hbad⟩
      rcases List.mem_cons.1 hmem with h | h
      · subst h
        simp only [List.foldlM_cons]
        rw [parse_line_eq acc ln hwfl, if_neg hbad]
        rfl
      · by_cases hokl : Cyacd.line_checksum_ok l
        · simp only [List.foldlM_cons]
          rw [parse_line_eq acc l hwfl, if_pos hokl]
          show ls.foldlM Cyacd.parse_line (acc ++ [Cyacd.line_row l]) = none
          exact (ih _ hwfs).2 ⟨ln, h, hbad⟩
        · simp only [List.foldlM_cons]
          rw [parse_line_eq acc l hwfl, if_neg hokl]
          rfl

/-- C8: for decoded firmware lines of the declared length, the parser
checks each line's trailing checksum byte against the 8-bit
two's-complement negation of the sum of the preceding bytes: if every
line matches, parsing succeeds and returns the rows in file order; if any
line differs, parsing fails hard and no row sequence is produced. -/
theorem parse_rows_checksum_gate (lines : List (List Nat))
    (hwf : ∀ ln ∈ lines, Cyacd.line_wf ln) :
    ((∀ ln ∈ lines, Cyacd.line_checksum_ok ln) →
      Cyacd.parse_rows lines = some (lines.map Cyacd.line_row)) ∧
    ((∃ ln ∈ lines, ¬ Cyacd.line_checksum_ok ln) →
      Cyacd.parse_rows lines = none) := by
  have h := parse_rows_go lines [] hwf
  constructor
  · intro hok
    have := h.1 hok
    simpa [Cyacd.parse_rows] using this
  · intro hbad
    have := h.2 hbad
    simpa [Cyacd.parse_rows] using this

/-- Witness for C8: a well-formed two-line image with matching checksums
parses to its two rows in order, and corrupting the second line's
checksum makes the whole parse fail. -/
theorem parse_rows_checksum_gate_witness :
    (∀ ln ∈ [[1, 0, 1, 0, 2, 0xaa, 0xbb, 151], [2, 0, 3, 0, 1, 0x10, 234]],
      Cyacd.line_wf ln) ∧
    (∀ ln ∈ [[1, 0, 1, 0, 2, 0xaa, 0xbb, 151], [2, 0, 3, 0, 1, 0x10, 234]],
      Cyacd.line_checksum_ok ln) ∧
    Cyacd.parse_rows [[1, 0, 1, 0, 2, 0xaa, 0xbb, 151], [2, 0, 3, 0, 1, 0x10, 234]] =
      some ([[1, 0, 1, 0, 2, 0xaa, 0xbb, 151], [2, 0, 3, 0, 1, 0x10, 234]].map
        Cyacd.line_row) :=
  ⟨by decide, by decide,
    (parse_rows_checksum_gate
      [[1, 0, 1, 0, 2, 0xaa, 0xbb, 151], [2, 0, 3, 0, 1, 0x10, 234]]
      (by decide)).1 (by decide)⟩
